import Mathlib

/-!
Shallow embedding of the inventory aggregation logic of the CASPER
infrastructure dashboard (src/app.py).  The dashboard builds a fixed
table of machine records and derives summary statistics from it:
sums of threads and RAM, machine and GPU counts, top-N rankings with
percent-of-total, and the filtered list of GPU-equipped machines.
The presentation layer (streamlit/plotly calls) is not modelled.
-/

namespace CasperDashboard

/-- One row of the machine inventory table (src/app.py lines 42-55).
The RAM column is nullable (pandas dropna is applied to it); the GPU
column is a plain string where the empty string means no GPU. -/
structure MachineRecord where
  name : String
  location : String
  threadCount : Nat
  nvmeStorage : String
  diskStorage : String
  ramGB : Option Nat
  swap : String
  gpu : String
deriving DecidableEq

/-- The hardcoded dataset of src/app.py lines 42-57. -/
def infrastructureData : List MachineRecord :=
  [ ⟨"ISCA", "Kresit server room (3rd floor)", 96, "1T", "4T", some 128, "119G", ""⟩,
    ⟨"MICRO", "Kresit server room (3rd floor)", 96, "1T", "4T", some 128, "119G", ""⟩,
    ⟨"HPCA", "Kresit server room (basement)", 96, "1T", "2T", some 128, "230G", ""⟩,
    ⟨"USEC", "Kresit server room (basement)", 48, "1T", "6T", some 128, "64G", ""⟩,
    ⟨"ASPLOS", "Kresit server room (conference room)", 96, "1T", "2T", some 204, "93G", ""⟩,
    ⟨"usenix", "Kresit server room (basement)", 128, "2T", "10T", some 64, "93G",
      "NVIDIA RTX A6000"⟩,
    ⟨"sharcserver1", "Kresit server room (3rd floor)", 64, "406G", "18T", some 64, "64G",
      "AMD RX7990 XT"⟩,
    ⟨"dhristi", "Kresit server room (basement)", 512, "1T", "20T", some 512, "128G", ""⟩ ]

/-- Removal of surrounding whitespace from a string: the semantics of the
Python str.strip() calls of src/app.py lines 63 and 195, written as
structural recursion over the character list of the string. -/
def strip (s : String) : String :=
  ⟨((s.data.dropWhile Char.isWhitespace).reverse.dropWhile Char.isWhitespace).reverse⟩

/-- Sum of the Threads column over all rows (src/app.py line 61). -/
def totalThreads (records : List MachineRecord) : Nat :=
  (records.map (fun r => r.threadCount)).sum

/-- Sum of the RAM column after dropping absent values (src/app.py line 62:
the RAM column with dropna, then sum).  Rows without RAM data are skipped,
not treated as zero. -/
def totalRAM (records : List MachineRecord) : Nat :=
  (records.filterMap (fun r => r.ramGB)).sum

/-- Number of rows of the table (src/app.py line 60). -/
def machineCount (records : List MachineRecord) : Nat :=
  records.length

/-- The GPU filter of src/app.py lines 63 and 195: the GPU string,
stripped of surrounding whitespace, is non-empty. -/
def gpuEquipped (r : MachineRecord) : Bool :=
  strip r.gpu != ""

/-- Count of GPU-equipped rows (src/app.py line 63). -/
def gpuEquippedCount (records : List MachineRecord) : Nat :=
  (records.filter gpuEquipped).length

/-- The GPU-equipped rows restricted to the machine-name and GPU columns
(src/app.py line 195).  The filter strips whitespace, but the GPU string
kept in the result is the original, untrimmed one. -/
def gpuEquippedMachines (records : List MachineRecord) : List (String × String) :=
  (records.filter gpuEquipped).map (fun r => (r.name, r.gpu))

/-- Stable descending sort by a numeric key, then the first n rows: the
semantics of the pandas nlargest calls of src/app.py lines 181 and 188
(keep is first, its default).  Rows with equal keys keep their original
relative order, so the earliest rows win ties. -/
def nlargestBy (key : MachineRecord → Nat) (n : Nat) (records : List MachineRecord) :
    List MachineRecord :=
  (records.insertionSort (fun a b => key b ≤ key a)).take n

/-- The n rows with the largest thread counts (src/app.py line 181,
generalized over n). -/
def nlargestThreads (records : List MachineRecord) (n : Nat) : List MachineRecord :=
  nlargestBy (fun r => r.threadCount) n records

/-- The n rows with the largest RAM among rows with RAM data
(src/app.py line 188: dropna on the RAM column, then nlargest). -/
def nlargestRAM (records : List MachineRecord) (n : Nat) : List MachineRecord :=
  nlargestBy (fun r => r.ramGB.getD 0) n (records.filter (fun r => r.ramGB.isSome))

/-- Percent of the thread total held by one row (src/app.py line 183),
as an exact rational. -/
def threadPercentage (records : List MachineRecord) (r : MachineRecord) : ℚ :=
  (r.threadCount : ℚ) / (totalThreads records : ℚ) * 100

/-- Percent of the RAM total held by one row (src/app.py line 190),
as an exact rational. -/
def ramPercentage (records : List MachineRecord) (r : MachineRecord) : ℚ :=
  ((r.ramGB.getD 0 : Nat) : ℚ) / (totalRAM records : ℚ) * 100

/-- Modelled from the spec: the aggregator operation topNByThreads of
spec section 4.1.  src/app.py only instantiates the ranking at n = 3
over a dataset with a positive thread total, so the handling of a
negative n (spec sections 4.1 and 7: reject as invalid argument before
computation) and of a zero thread total (spec sections 4.1 and 9:
report the percentage as not applicable instead of dividing by zero)
is taken from the spec; the ranking itself and the percentage formula
are the ones of src/app.py lines 181-184. -/
def topNByThreads (records : List MachineRecord) (n : Int) :
    Except String (List (MachineRecord × Option ℚ)) :=
  if n < 0 then
    .error "invalid argument: n must be non-negative"
  else
    .ok ((nlargestThreads records n.toNat).map (fun r =>
      (r, if totalThreads records = 0 then none else some (threadPercentage records r))))

/-- Modelled from the spec: the aggregator operation topNByRAM of spec
section 4.1, with the same spec-taken boundary handling as topNByThreads;
the ranking over rows with RAM data and the percentage formula are the
ones of src/app.py lines 188-191. -/
def topNByRAM (records : List MachineRecord) (n : Int) :
    Except String (List (MachineRecord × Option ℚ)) :=
  if n < 0 then
    .error "invalid argument: n must be non-negative"
  else
    .ok ((nlargestRAM records n.toNat).map (fun r =>
      (r, if totalRAM records = 0 then none else some (ramPercentage records r))))

/-- First record of the three-record scenario of spec section 8. -/
def recA : MachineRecord := ⟨"A", "", 96, "", "", some 128, "", ""⟩

/-- Second record of the scenario: RAM absent. -/
def recB : MachineRecord := ⟨"B", "", 128, "", "", none, "", ""⟩

/-- Third record of the scenario: GPU present. -/
def recC : MachineRecord := ⟨"C", "", 64, "", "", some 64, "", "RX7990"⟩

/-- The scenario collection of spec section 8. -/
def scenarioRecords : List MachineRecord := [recA, recB, recC]

/-- A record with thread count zero, for the zero-total boundary. -/
def zRec1 : MachineRecord := ⟨"Z1", "", 0, "", "", none, "", ""⟩

/-- A second record with thread count zero. -/
def zRec2 : MachineRecord := ⟨"Z2", "", 0, "", "", none, "", ""⟩

/-- A record whose GPU string has surrounding whitespace. -/
def wsGpuRec : MachineRecord := ⟨"W", "", 1, "", "", none, "", " AMD RX7990 "⟩

/-- A record whose GPU string is whitespace only. -/
def wsOnlyRec : MachineRecord := ⟨"WS", "", 0, "", "", none, "", "  "⟩

/-! Helper lemmas about the stable descending sort underlying nlargestBy. -/

/-- The sort used by nlargestBy is sorted descending by the key. -/
lemma sorted_insertionSortKey (key : MachineRecord → Nat) (l : List MachineRecord) :
    (l.insertionSort (fun a b => key b ≤ key a)).Pairwise (fun a b => key b ≤ key a) := by
  haveI : IsTotal MachineRecord (fun a b => key b ≤ key a) :=
    ⟨fun a b => le_total (key b) (key a)⟩
  haveI : IsTrans MachineRecord (fun a b => key b ≤ key a) :=
    ⟨fun a b c hab hbc => le_trans hbc hab⟩
  exact List.sorted_insertionSort _ l

/-- Stability of the sort used by nlargestBy: the rows holding any fixed
key value come out in exactly their original order. -/
lemma filter_key_insertionSort (key : MachineRecord → Nat) (k : Nat)
    (l : List MachineRecord) :
    (l.insertionSort (fun a b => key b ≤ key a)).filter (fun r => key r == k)
      = l.filter (fun r => key r == k) := by
  have hpair : (l.filter (fun r => key r == k)).Pairwise (fun a b => key b ≤ key a) := by
    apply List.pairwise_of_forall_mem_list
    intro a ha b hb
    have ha' : key a = k := by simpa using (List.mem_filter.mp ha).2
    have hb' : key b = k := by simpa using (List.mem_filter.mp hb).2
    omega
  have hsub : (l.filter (fun r => key r == k)).Sublist
      (l.insertionSort (fun a b => key b ≤ key a)) :=
    List.sublist_insertionSort hpair (List.filter_sublist l)
  have hsub2 : ((l.filter (fun r => key r == k)).filter (fun r => key r == k)).Sublist
      ((l.insertionSort (fun a b => key b ≤ key a)).filter (fun r => key r == k)) :=
    List.Sublist.filter _ hsub
  have hidem : (l.filter (fun r => key r == k)).filter (fun r => key r == k)
      = l.filter (fun r => key r == k) := by
    rw [List.filter_filter]
    simp
  rw [hidem] at hsub2
  have hlen : ((l.insertionSort (fun a b => key b ≤ key a)).filter
      (fun r => key r == k)).length = (l.filter (fun r => key r == k)).length :=
    ((List.perm_insertionSort _ l).filter _).length_eq
  exact (hsub2.eq_of_length hlen.symm).symm

/-- The result of nlargestBy is sorted descending by the key. -/
lemma nlargestBy_pairwise (key : MachineRecord → Nat) (n : Nat)
    (records : List MachineRecord) :
    (nlargestBy key n records).Pairwise (fun a b => key b ≤ key a) :=
  List.Pairwise.sublist (List.take_sublist n _) (sorted_insertionSortKey key records)

/-- Stability of nlargestBy: for any fixed key value, the rows of the
result holding it form an initial segment of the rows of the input
holding it, so ties keep their original relative order. -/
lemma nlargestBy_filter_eq_append (key : MachineRecord → Nat) (n : Nat)
    (records : List MachineRecord) (k : Nat) :
    ∃ t, (nlargestBy key n records).filter (fun r => key r == k) ++ t
      = records.filter (fun r => key r == k) := by
  refine ⟨(List.drop n (records.insertionSort (fun a b => key b ≤ key a))).filter
    (fun r => key r == k), ?_⟩
  rw [nlargestBy, ← List.filter_append, List.take_append_drop]
  exact filter_key_insertionSort key k records

/-- When n covers the whole collection, nlargestBy returns a permutation
of the collection. -/
lemma nlargestBy_perm_of_le (key : MachineRecord → Nat) (n : Nat)
    (records : List MachineRecord) (h : records.length ≤ n) :
    (nlargestBy key n records).Perm records := by
  rw [nlargestBy, List.take_of_length_le]
  · exact List.perm_insertionSort _ records
  · rw [List.length_insertionSort]
    exact h

/-- Every row returned by nlargestBy comes from the input collection. -/
lemma nlargestBy_subset (key : MachineRecord → Nat) (n : Nat)
    (records : List MachineRecord) :
    nlargestBy key n records ⊆ records := fun _ hx =>
  (List.mem_insertionSort _).mp (List.take_subset n _ hx)

/-- Unfolding of topNByThreads on a non-negative n. -/
lemma topNByThreads_ok (records : List MachineRecord) (n : Int) (hn : 0 ≤ n) :
    topNByThreads records n = .ok ((nlargestThreads records n.toNat).map (fun r =>
      (r, if totalThreads records = 0 then none else some (threadPercentage records r)))) := by
  rw [topNByThreads, if_neg (not_lt.mpr hn)]

/-- Inversion of a successful topNByThreads call. -/
lemma topNByThreads_ok_inv (records : List MachineRecord) (n : Int)
    (l : List (MachineRecord × Option ℚ)) (h : topNByThreads records n = .ok l) :
    l = (nlargestThreads records n.toNat).map (fun r =>
      (r, if totalThreads records = 0 then none else some (threadPercentage records r))) := by
  by_cases hn : n < 0
  · rw [topNByThreads, if_pos hn] at h
    exact absurd h (by simp)
  · rw [topNByThreads, if_neg hn] at h
    simpa using h.symm

/-- Unfolding of topNByRAM on a non-negative n. -/
lemma topNByRAM_ok (records : List MachineRecord) (n : Int) (hn : 0 ≤ n) :
    topNByRAM records n = .ok ((nlargestRAM records n.toNat).map (fun r =>
      (r, if totalRAM records = 0 then none else some (ramPercentage records r)))) := by
  rw [topNByRAM, if_neg (not_lt.mpr hn)]

/-- Inversion of a successful topNByRAM call. -/
lemma topNByRAM_ok_inv (records : List MachineRecord) (n : Int)
    (l : List (MachineRecord × Option ℚ)) (h : topNByRAM records n = .ok l) :
    l = (nlargestRAM records n.toNat).map (fun r =>
      (r, if totalRAM records = 0 then none else some (ramPercentage records r))) := by
  by_cases hn : n < 0
  · rw [topNByRAM, if_pos hn] at h
    exact absurd h (by simp)
  · rw [topNByRAM, if_neg hn] at h
    simpa using h.symm

/-- Projecting the record component out of a record-percentage pairing
recovers the record list. -/
lemma map_fst_map_pair (g : MachineRecord → Option ℚ) (m : List MachineRecord) :
    (m.map (fun r => (r, g r))).map Prod.fst = m := by
  induction m with
  | nil => rfl
  | cons a t ih => simp [ih]

/-- Restricting to the rows with RAM data does not change the RAM total. -/
lemma totalRAM_filter (records : List MachineRecord) :
    totalRAM (records.filter (fun r => r.ramGB.isSome)) = totalRAM records := by
  induction records with
  | nil => rfl
  | cons r rs ih =>
    cases hr : r.ramGB with
    | none => simpa [totalRAM, List.filter_cons, List.filterMap_cons, hr] using ih
    | some v => simpa [totalRAM, List.filter_cons, List.filterMap_cons, hr] using ih

/-! Claim theorems. -/

/-- C1: On the three-record scenario collection, totalThreads is 288,
totalRAM is 192 (the absent RAM of record B is skipped), machineCount
is 3, gpuEquippedCount is 1, topNByThreads at n = 1 returns exactly
record B with percentage 128/288*100 = 400/9, which displays as 44.4
at one decimal, and topNByRAM at n = 1 returns exactly record A with
percentage 128/192*100 = 200/3, which displays as 66.7 at one decimal. -/
theorem aggregator_scenario_three_records :
    totalThreads scenarioRecords = 288 ∧
    totalRAM scenarioRecords = 192 ∧
    machineCount scenarioRecords = 3 ∧
    gpuEquippedCount scenarioRecords = 1 ∧
    topNByThreads scenarioRecords 1 = .ok [(recB, some (400 / 9))] ∧
    round (((400 : ℚ) / 9) * 10) = 444 ∧
    topNByRAM scenarioRecords 1 = .ok [(recA, some (200 / 3))] ∧
    round (((200 : ℚ) / 3) * 10) = 667 := by
  refine ⟨by decide, by decide, rfl, by decide, ?_, ?_, ?_, ?_⟩
  · have h1 : nlargestThreads scenarioRecords ((1 : Int).toNat) = [recB] := by decide
    have h2 : totalThreads scenarioRecords = 288 := by decide
    rw [topNByThreads_ok scenarioRecords 1 (by decide), h1, h2]
    have h3 : threadPercentage scenarioRecords recB = 400 / 9 := by
      rw [threadPercentage, h2]
      norm_num [recB]
    simp [h3]
  · rw [round_eq]
    exact Int.floor_eq_iff.mpr (by norm_num)
  · have h1 : nlargestRAM scenarioRecords ((1 : Int).toNat) = [recA] := by decide
    have h2 : totalRAM scenarioRecords = 192 := by decide
    rw [topNByRAM_ok scenarioRecords 1 (by decide), h1, h2]
    have h3 : ramPercentage scenarioRecords recA = 200 / 3 := by
      rw [ramPercentage, h2]
      norm_num [recA]
    simp [h3]
  · rw [round_eq]
    exact Int.floor_eq_iff.mpr (by norm_num)

/-- C2: Rows with absent RAM contribute nothing to totalRAM (deleting
such a row anywhere leaves the total unchanged, and the total equals the
total over the rows with RAM data); totalRAM is 0 on the empty collection
and whenever no row has RAM data; rows with absent RAM never appear in a
successful topNByRAM result; and the percentage denominator of topNByRAM
is totalRAM restricted to the rows with RAM data. -/
theorem totalRAM_skips_absent :
    (∀ (pre post : List MachineRecord) (r : MachineRecord), r.ramGB = none →
        totalRAM (pre ++ r :: post) = totalRAM (pre ++ post))
    ∧ (∀ records : List MachineRecord,
        totalRAM records = totalRAM (records.filter (fun r => r.ramGB.isSome)))
    ∧ totalRAM [] = 0
    ∧ (∀ records : List MachineRecord, (∀ r ∈ records, r.ramGB = none) →
        totalRAM records = 0)
    ∧ (∀ (records : List MachineRecord) (n : Int) (l : List (MachineRecord × Option ℚ)),
        topNByRAM records n = .ok l → ∀ p ∈ l, p.1.ramGB ≠ none)
    ∧ (∀ (records : List MachineRecord) (n : Int) (l : List (MachineRecord × Option ℚ)),
        topNByRAM records n = .ok l → ∀ p ∈ l,
          p.2 = if totalRAM (records.filter (fun r => r.ramGB.isSome)) = 0 then none
            else some (((p.1.ramGB.getD 0 : ℕ) : ℚ)
              / (totalRAM (records.filter (fun r => r.ramGB.isSome)) : ℚ) * 100)) := by
  refine ⟨?_, ?_, rfl, ?_, ?_, ?_⟩
  · intro pre post r hr
    simp [totalRAM, List.filterMap_append, List.filterMap_cons, hr]
  · intro records
    exact (totalRAM_filter records).symm
  · intro records hall
    induction records with
    | nil => rfl
    | cons r rs ih =>
      have hr := hall r (List.mem_cons_self r rs)
      have := ih (fun x hx => hall x (List.mem_cons_of_mem r hx))
      simpa [totalRAM, List.filterMap_cons, hr] using this
  · intro records n l h p hp
    rw [topNByRAM_ok_inv records n l h] at hp
    obtain ⟨r, hr, rfl⟩ := List.mem_map.mp hp
    have hmem : r ∈ records.filter (fun r => r.ramGB.isSome) :=
      nlargestBy_subset _ _ _ hr
    have := (List.mem_filter.mp hmem).2
    simp only [Option.isSome_iff_exists] at this
    obtain ⟨v, hv⟩ := this
    simp [hv]
  · intro records n l h p hp
    rw [topNByRAM_ok_inv records n l h] at hp
    obtain ⟨r, _, rfl⟩ := List.mem_map.mp hp
    rw [totalRAM_filter records]
    rfl

/-- C2 witness: deleting the absent-RAM record B from the scenario
collection leaves totalRAM unchanged. -/
theorem totalRAM_skips_absent_witness :
    totalRAM ([recA] ++ recB :: [recC]) = totalRAM ([recA] ++ [recC]) :=
  totalRAM_skips_absent.1 [recA] [recC] recB rfl

/-- C3: Any successful topNByThreads result is sorted descending by
thread count; for every key value the rows of the result holding it form
an initial segment of the rows of the input holding it (stable ties,
earliest rows win); and when n covers the whole collection the result is
a permutation of the collection. -/
theorem topNByThreads_sorted_stable (records : List MachineRecord) (n : Int)
    (l : List (MachineRecord × Option ℚ)) (h : topNByThreads records n = .ok l) :
    (l.map Prod.fst).Pairwise (fun a b => b.threadCount ≤ a.threadCount)
    ∧ (∀ k : Nat, ∃ t, (l.map Prod.fst).filter (fun r => r.threadCount == k) ++ t
        = records.filter (fun r => r.threadCount == k))
    ∧ ((records.length : Int) ≤ n → (l.map Prod.fst).Perm records) := by
  have hl : l.map Prod.fst = nlargestThreads records n.toNat := by
    rw [topNByThreads_ok_inv records n l h]
    exact map_fst_map_pair _ _
  refine ⟨?_, ?_, ?_⟩
  · rw [hl]
    exact nlargestBy_pairwise _ _ _
  · intro k
    rw [hl]
    exact nlargestBy_filter_eq_append _ _ _ _
  · intro hn
    rw [hl]
    exact nlargestBy_perm_of_le _ _ _ (by omega)

/-- C3 witness: a concrete successful call whose result is sorted
descending by thread count. -/
theorem topNByThreads_sorted_stable_witness :
    (([(zRec1, (none : Option ℚ)), (zRec2, none)].map Prod.fst).Pairwise
      (fun a b => b.threadCount ≤ a.threadCount)) :=
  (topNByThreads_sorted_stable [zRec1, zRec2] 2 [(zRec1, none), (zRec2, none)] rfl).1

/-- C4: When the thread total is zero, topNByThreads still succeeds for
any non-negative n and reports every percentage as not applicable (none);
no division by zero is performed and no error, NaN or infinity results. -/
theorem topNByThreads_zero_total_not_applicable (records : List MachineRecord)
    (n : Int) (hn : 0 ≤ n) (h0 : totalThreads records = 0) :
    topNByThreads records n
      = .ok ((nlargestThreads records n.toNat).map (fun r => (r, (none : Option ℚ)))) := by
  rw [topNByThreads_ok records n hn]
  simp [h0]

/-- C4 witness: a concrete zero-total collection on which topNByThreads
succeeds with a not-applicable percentage. -/
theorem topNByThreads_zero_total_not_applicable_witness :
    topNByThreads [zRec1] 1 = .ok [(zRec1, (none : Option ℚ))] := by
  rw [topNByThreads_zero_total_not_applicable [zRec1] 1 (by decide) rfl]
  rfl

/-- C5: A negative n is rejected synchronously as an invalid argument:
topNByThreads returns a descriptive error, never an empty or
wrapped-around selection. -/
theorem topNByThreads_negative_n_error (records : List MachineRecord) (n : Int)
    (hn : n < 0) :
    topNByThreads records n = .error "invalid argument: n must be non-negative" := by
  rw [topNByThreads, if_pos hn]

/-- C5 witness: the concrete call with n = -1 errors out. -/
theorem topNByThreads_negative_n_error_witness :
    topNByThreads [] (-1) = .error "invalid argument: n must be non-negative" :=
  topNByThreads_negative_n_error [] (-1) (by decide)

/-- C6 counterexample: on a record whose GPU string has surrounding
whitespace, gpuEquippedMachines pairs the entry with the original,
untrimmed GPU string, not with the trimmed one the claim requires. -/
theorem gpuEquippedMachines_untrimmed_cex :
    gpuEquippedMachines [wsGpuRec] = [("W", " AMD RX7990 ")]
    ∧ strip " AMD RX7990 " = "AMD RX7990"
    ∧ (" AMD RX7990 " : String) ≠ "AMD RX7990" := by
  refine ⟨by decide, by decide, by decide⟩

/-- C6 amended: gpuEquippedMachines returns exactly the records whose
GPU string is non-empty after trimming surrounding whitespace, in the
original input order, each paired with its original (untrimmed) GPU
description. -/
theorem gpuEquippedMachines_original_pairing (records : List MachineRecord) :
    (∀ r ∈ records, strip r.gpu ≠ "" → (r.name, r.gpu) ∈ gpuEquippedMachines records)
    ∧ (∀ p ∈ gpuEquippedMachines records, ∃ r ∈ records,
        p = (r.name, r.gpu) ∧ strip r.gpu ≠ "")
    ∧ (gpuEquippedMachines records).Sublist (records.map (fun r => (r.name, r.gpu))) := by
  refine ⟨?_, ?_, ?_⟩
  · intro r hr hgpu
    rw [gpuEquippedMachines]
    exact List.mem_map_of_mem _
      (List.mem_filter.mpr ⟨hr, by simpa [gpuEquipped] using hgpu⟩)
  · intro p hp
    rw [gpuEquippedMachines] at hp
    obtain ⟨r, hrf, rfl⟩ := List.mem_map.mp hp
    have hm := List.mem_filter.mp hrf
    exact ⟨r, hm.1, rfl, by simpa [gpuEquipped] using hm.2⟩
  · rw [gpuEquippedMachines]
    exact List.Sublist.map _ (List.filter_sublist records)

/-- C6 amended witness: record C of the scenario appears in the result
paired with its GPU description. -/
theorem gpuEquippedMachines_original_pairing_witness :
    ("C", "RX7990") ∈ gpuEquippedMachines [recC] :=
  (gpuEquippedMachines_original_pairing [recC]).1 recC (by decide) (by decide)

/-- C7: gpuEquippedCount counts exactly the records whose GPU string is
non-empty after trimming surrounding whitespace; appending a record whose
GPU string trims to empty, such as a whitespace-only one, leaves the
count unchanged. -/
theorem gpuEquippedCount_trimmed_nonempty (records : List MachineRecord) :
    gpuEquippedCount records = records.countP (fun r => decide (strip r.gpu ≠ ""))
    ∧ ∀ r : MachineRecord, strip r.gpu = "" →
        gpuEquippedCount (records ++ [r]) = gpuEquippedCount records := by
  constructor
  · rw [gpuEquippedCount, List.countP_eq_length_filter]
    apply congrArg List.length
    apply List.filter_congr
    intro r _
    by_cases h : strip r.gpu = "" <;> simp [gpuEquipped, h]
  · intro r hr
    rw [gpuEquippedCount, gpuEquippedCount, List.filter_append]
    simp [gpuEquipped, hr]

/-- C7 witness: appending the whitespace-only-GPU record to the scenario
collection leaves the GPU count unchanged (it is not counted). -/
theorem gpuEquippedCount_trimmed_nonempty_witness :
    gpuEquippedCount (scenarioRecords ++ [wsOnlyRec]) = gpuEquippedCount scenarioRecords :=
  (gpuEquippedCount_trimmed_nonempty scenarioRecords).2 wsOnlyRec (by decide)

/-- C8: When the thread total is positive, topNByThreads over the whole
collection (n = machineCount) succeeds with every percentage defined, and
the percentages sum to exactly 100 in exact rational arithmetic. -/
theorem topNByThreads_percentages_sum_100 (records : List MachineRecord)
    (h : 0 < totalThreads records) :
    topNByThreads records (machineCount records)
        = .ok ((nlargestThreads records (machineCount records)).map
            (fun r => (r, some (threadPercentage records r))))
    ∧ ((nlargestThreads records (machineCount records)).map
        (fun r => threadPercentage records r)).sum = 100 := by
  have hne : totalThreads records ≠ 0 := h.ne'
  constructor
  · rw [topNByThreads_ok records _ (Int.natCast_nonneg _)]
    have htn : ((machineCount records : Int)).toNat = machineCount records := by omega
    rw [htn]
    simp [hne]
  · have hperm : (nlargestThreads records (machineCount records)).Perm records :=
      nlargestBy_perm_of_le _ _ _ le_rfl
    rw [(hperm.map (fun r => threadPercentage records r)).sum_eq]
    have hform : ∀ r : MachineRecord, threadPercentage records r
        = (r.threadCount : ℚ) * (100 / (totalThreads records : ℚ)) := by
      intro r
      rw [threadPercentage]
      ring
    simp only [hform]
    rw [List.sum_map_mul_right]
    have hcast : (records.map fun r => ((r.threadCount : ℕ) : ℚ)).sum
        = ((totalThreads records : ℕ) : ℚ) := by
      rw [totalThreads, Nat.cast_list_sum, List.map_map]
      rfl
    rw [hcast]
    have hQ : ((totalThreads records : ℕ) : ℚ) ≠ 0 := Nat.cast_ne_zero.mpr hne
    rw [mul_comm, div_mul_cancel₀ _ hQ]

/-- C8 witness: on the scenario collection the percentages over the full
ranking sum to 100. -/
theorem topNByThreads_percentages_sum_100_witness :
    ((nlargestThreads scenarioRecords (machineCount scenarioRecords)).map
        (fun r => threadPercentage scenarioRecords r)).sum = 100 :=
  (topNByThreads_percentages_sum_100 scenarioRecords (by decide)).2

/-- C9: On the empty collection every aggregator operation yields a zero
or empty result, not an error: totalThreads, totalRAM, machineCount and
gpuEquippedCount are 0 and topNByThreads with n = 3 returns the empty list. -/
theorem aggregator_empty_collection :
    totalThreads [] = 0 ∧ totalRAM [] = 0 ∧ machineCount [] = 0 ∧
    gpuEquippedCount [] = 0 ∧ topNByThreads [] 3 = .ok [] := by
  refine ⟨rfl, rfl, rfl, rfl, rfl⟩

/-- C10: The scalar GPU count always equals the number of entries of the
GPU-equipped subset: both are computed from the same trimmed-non-empty
predicate. -/
theorem gpuEquippedCount_eq_gpuEquippedMachines_length (records : List MachineRecord) :
    gpuEquippedCount records = (gpuEquippedMachines records).length := by
  rw [gpuEquippedCount, gpuEquippedMachines, List.length_map]

end CasperDashboard
